import Mathlib

/-!
Shallow embedding of the `mister_ed` neural-fingerprinting sources
(`NeuralFP.py` and `loss_functions.py`).

Modelling conventions: machine floats are modelled by `ℚ`; tensors by lists of
rows or by index functions; the process-wide random source by an explicit
stream of uniform `[0,1)` samples; Python exceptions by `Except String`.
Line numbers in doc comments refer to the source files.
-/

/- -------------------------------------------------------------------- -/
/- Fingerprint generation: NeuralFP.__init__ (NeuralFP.py lines 32-97)  -/
/- -------------------------------------------------------------------- -/

/-- Entry `fp_target[c, j, c2]` of the target-code array.
NeuralFP.py lines 67-70 (mnist branch: fill with `-0.2357`, then overwrite
`fp_target[i, j, i] = 0.7` for every `i, j`) and lines 83-88 (else/CIFAR
branch: fill with `-0.254`, overwrite the diagonal entries with `0.6`, then
scale the whole array by `1.5`).  The entry does not depend on the direction
index `j`, since the loop body is the same for every `j`. -/
def fp_target_entry (dataset_name : String) (c j c2 : ℕ) : ℚ :=
  if dataset_name == "mnist" then (if c2 = c then 0.7 else -0.2357)
  else 1.5 * (if c2 = c then 0.6 else -0.254)

/-- Own-class target-code value minus other-class value, per dataset profile
(read off NeuralFP.py lines 67-70 and 83-88). -/
def fp_sep (dataset_name : String) : ℚ :=
  if dataset_name == "mnist" then 0.7 - (-0.2357) else 1.5 * 0.6 - 1.5 * (-0.254)

/-- One entry of a mnist-profile direction: `np.random.rand(1, 1, 28, 28) * eps`
(NeuralFP.py line 65), with `u` the uniform `[0,1)` sample for this entry. -/
def mnist_dir_entry (eps u : ℚ) : ℚ := u * eps

/-- One entry of a CIFAR-profile direction:
`(np.random.rand(1, 3, 32, 32) - 0.5) * 2 * eps` (NeuralFP.py line 80). -/
def cifar_dir_entry (eps u : ℚ) : ℚ := (u - 0.5) * 2 * eps

/-- A generated fingerprint: the perturbation directions `fp_dx` (one entry map
per direction) and the target-code array `fp_target` (as an index function
`class → direction → class → value`). -/
structure Fingerprint where
  fp_dx : List (ℕ → ℚ)
  fp_target : ℕ → ℕ → ℕ → ℚ

/-- `NeuralFP.__init__` (NeuralFP.py lines 32-97), fingerprint-building part.
`rand i e` is the uniform `[0,1)` sample drawn for entry `e` of direction `i`.
The constructor performs no count validation of its own; the only failure
reachable from the counts is `np.ones((num_class, num_dx, num_class))`
(lines 67 and 83), which raises `ValueError` when a dimension is negative.
For `num_dx ≤ 0` the direction list comprehensions produce an empty list. -/
def NeuralFP_init (dataset_name : String) (num_dx num_class : ℤ) (eps : ℚ)
    (rand : ℕ → ℕ → ℚ) : Except String Fingerprint :=
  if num_dx < 0 ∨ num_class < 0 then
    Except.error "ValueError: negative dimensions are not allowed"
  else if dataset_name == "mnist" then
    Except.ok { fp_dx := (List.range num_dx.toNat).map
                  (fun i => fun e => mnist_dir_entry eps (rand i e)),
                fp_target := fun c j c2 => fp_target_entry dataset_name c j c2 }
  else
    Except.ok { fp_dx := (List.range num_dx.toNat).map
                  (fun i => fun e => cifar_dir_entry eps (rand i e)),
                fp_target := fun c j c2 => fp_target_entry dataset_name c j c2 }

/-- Constructor test on `Except` (Python view: did the call return normally?). -/
def except_ok {α : Type} (e : Except String α) : Bool :=
  match e with
  | Except.ok _ => true
  | Except.error _ => false

/- -------------------------------------------------------------------- -/
/- Augmented-batch construction: NeuralFP.train (NeuralFP.py 168-174)   -/
/- -------------------------------------------------------------------- -/

/-- One iteration of the direction loop, NeuralFP.py lines 172-174:
`inputs_net = torch.cat((inputs_net, inputs_net + dx))`.  A batch is a list of
rows; `+ dx` broadcasts the direction over every row currently in
`inputs_net`. -/
def augment_step (inputs_net : List (List ℚ)) (dx : List ℚ) : List (List ℚ) :=
  inputs_net ++ inputs_net.map (fun row => List.zipWith (fun a b => a + b) row dx)

/-- NeuralFP.py lines 168-174: start from `inputs_net = inputs` and run the
`for i in range(self.num_dx)` loop over the perturbation directions. -/
def augmented_batch (inputs : List (List ℚ)) (fp_dx : List (List ℚ)) :
    List (List ℚ) :=
  fp_dx.foldl augment_step inputs

/- -------------------------------------------------------------------- -/
/- Combined loss scale: NeuralFP.train (NeuralFP.py lines 210-215)      -/
/- -------------------------------------------------------------------- -/

/-- NeuralFP.py lines 210-215: combine vanilla loss and fingerprint loss.
`regularize_adv_scale` is the optional explicit override (Python `None` is
`Option.none`); otherwise `self.dataset_name == "cifar"` selects the scale
`1.0 + 50.0 / self.num_dx`, and any other dataset name gets `1.0`. -/
def combined_loss (loss reg_adv_loss : ℚ) (num_dx : ℕ) (dataset_name : String)
    (regularize_adv_scale : Option ℚ) : ℚ :=
  match regularize_adv_scale with
  | some s => loss + s * reg_adv_loss
  | none =>
    if dataset_name == "cifar" then loss + (1 + 50 / (num_dx : ℚ)) * reg_adv_loss
    else loss + 1 * reg_adv_loss

/-- The scale factor multiplying the fingerprint loss, as described by the
spec: the explicit override if given, else `1 + 50/D` for the cifar profile,
else `1`. -/
def loss_scale (num_dx : ℕ) (dataset_name : String)
    (regularize_adv_scale : Option ℚ) : ℚ :=
  match regularize_adv_scale with
  | some s => s
  | none => if dataset_name == "cifar" then 1 + 50 / (num_dx : ℚ) else 1

/- -------------------------------------------------------------------- -/
/- Margin loss: CWLossF6.forward (loss_functions.py lines 143-175)      -/
/- -------------------------------------------------------------------- -/

/-- Maximum of a list of rationals (value of `torch.topk(..., 2)[0][:, 0]` for
one example's logit row; junk value `0` on the empty list, which never occurs
for a real logit row). -/
def listMax : List ℚ → ℚ
  | [] => 0
  | [a] => a
  | a :: b :: t => max a (listMax (b :: t))

/-- Index of the first occurrence of the maximum (the `top_argmax` of
`torch.topk(classifier_out, 2, dim=1)`, which reports the earliest index among
tied maximal values). -/
def argmaxIdx : List ℚ → ℕ
  | [] => 0
  | [_] => 0
  | a :: b :: t => if listMax (b :: t) ≤ a then 0 else argmaxIdx (b :: t) + 1

/-- loss_functions.py lines 160-165 for one example:
`second_max` is the second-largest logit overall, i.e. the maximum after
removing one copy of the top logit, and
`max_other = targets_eq_max * second_max + targets_ne_max * top_max`
selects `second_max` exactly when `top_argmax` equals the label. -/
def max_other (logits : List ℚ) (label : ℕ) : ℚ :=
  if argmaxIdx logits = label then listMax (logits.eraseIdx (argmaxIdx logits))
  else listMax logits

/-- `CWLossF6.forward` for one example (loss_functions.py lines 152-175).
`target_logits` is `torch.gather(classifier_out, 1, labels)`;
`torch.clamp(x, min=-1*kappa)` is `max x (-kappa)`; `targeted` is the
`kwargs.get('targeted', False)` flag. -/
def cw_forward (logits : List ℚ) (label : ℕ) (kappa : ℚ) (targeted : Bool) : ℚ :=
  if targeted then max (max_other logits label - logits.getD label 0) (-kappa)
  else max (logits.getD label 0 - max_other logits label) (-kappa)

/- -------------------------------------------------------------------- -/
/- Loss framework: loss_functions.py lines 15-248                       -/
/- -------------------------------------------------------------------- -/

/-- A Python scalar as stored in `RegularizedLoss.scalars`: a plain number
(`isinstance(scalar, Number)` true), a tensor of per-example weights, or
Python `None`. -/
inductive PyScalar where
  | num : ℚ → PyScalar
  | tensor : List ℚ → PyScalar
  | pynone : PyScalar
deriving DecidableEq

/-- `isinstance(scalar, Number)` (loss_functions.py line 82). -/
def is_number : PyScalar → Bool
  | PyScalar.num _ => true
  | _ => false

/-- The concrete `PartialLoss` subclasses of loss_functions.py, with networks
named by identity keys (`ℕ`):
`PartialXentropy` (line 112, `nets = [classifier]`),
`CWLossF6` (line 143, `nets = [classifier]`),
`L2Regularization` (line 220, a `ReferenceRegularizer`; `nets = []`), and
`LpipsRegularization` (line 233, a `ReferenceRegularizer`;
`nets = [dist_model]`).  Reference terms carry their batch-scoped `fix_im`
(`Option`: Python `None` is `none`); images are lists of flattened rows. -/
inductive LossTermV where
  | xent_term : ℕ → LossTermV
  | cw_term : ℕ → ℚ → LossTermV
  | l2_term : Option (List (List ℚ)) → LossTermV
  | lpips_term : Option (List (List ℚ)) → ℕ → LossTermV
deriving DecidableEq

/-- The `self.nets` list of each term (see the `__init__` bodies cited above;
`ReferenceRegularizer.__init__` appends nothing, `LpipsRegularization`
appends its `dist_model`). -/
def LossTermV.nets : LossTermV → List ℕ
  | LossTermV.xent_term c => [c]
  | LossTermV.cw_term c _ => [c]
  | LossTermV.l2_term _ => []
  | LossTermV.lpips_term _ d => [d]

/-- `PartialLoss.zero_grad` (loss_functions.py lines 97-99): emits one
gradient-reset event per entry of `self.nets`, in order. -/
def LossTermV.zero_grad (t : LossTermV) : List ℕ := t.nets

/-- `isinstance(loss, ReferenceRegularizer)` (loss_functions.py line 76). -/
def LossTermV.is_ref : LossTermV → Bool
  | LossTermV.l2_term _ => true
  | LossTermV.lpips_term _ _ => true
  | _ => false

/-- The `fix_im` attribute of a reference term (`none` for non-reference
terms, which never read it). -/
def LossTermV.fix_im : LossTermV → Option (List (List ℚ))
  | LossTermV.l2_term f => f
  | LossTermV.lpips_term f _ => f
  | _ => none

/-- `ReferenceRegularizer.cleanup_attack_batch` (loss_functions.py lines
207-212): `self.fix_im = None` (the gradient-reset side effect carries no
state in this model). -/
def LossTermV.cleanup_attack_batch : LossTermV → LossTermV
  | LossTermV.l2_term _ => LossTermV.l2_term none
  | LossTermV.lpips_term _ d => LossTermV.lpips_term none d
  | t => t

/-- `RegularizedLoss` (loss_functions.py lines 15-88): named loss terms and
the same-keyed scalars, as association lists in insertion order. -/
structure RegularizedLoss where
  losses : List (String × LossTermV)
  scalars : List (String × PyScalar)

/-- `RegularizedLoss.zero_grad` (loss_functions.py lines 86-88): call
`loss.zero_grad()` on every term, concatenating the reset events.  The
source comments that this "probably zeros the same net more than once". -/
def RegularizedLoss.zero_grad (r : RegularizedLoss) : List ℕ :=
  (r.losses.map (fun p => p.2.zero_grad)).flatten

/-- `RegularizedLoss.cleanup_attack_batch` (loss_functions.py lines 68-83):
reference terms get `cleanup_attack_batch` (clearing `fix_im`), others get
`zero_grad`; then every scalar that is not a plain `Number` is set to
`None`. -/
def RegularizedLoss.cleanup_attack_batch (r : RegularizedLoss) :
    RegularizedLoss :=
  { losses := r.losses.map
      (fun p => (p.1, if p.2.is_ref then p.2.cleanup_attack_batch else p.2)),
    scalars := r.scalars.map
      (fun p => (p.1, if is_number p.2 then p.2 else PyScalar.pynone)) }

/-- The Python error raised when a reference regularizer is evaluated while
`self.fix_im` is `None` (a `TypeError` from arithmetic on `NoneType`). -/
def stale_msg : String := "TypeError: arithmetic on NoneType fix_im"

/-- Modelled from the spec: `img_utils.nchw_l2` (imported by
loss_functions.py from `utils.image_utils`, not part of src/) computes the
squared L2 distance per example between two equally-shaped image batches. -/
def nchw_l2 (examples fix_im : List (List ℚ)) : List ℚ :=
  (examples.zip fix_im).map
    (fun p => ((p.1.zip p.2).map (fun q => (q.1 - q.2) ^ 2)).sum)

/-- `L2Regularization.forward` (loss_functions.py lines 225-227):
`nchw_l2(examples, self.fix_im, squared=True)`.  With `fix_im = None` the
subtraction inside `nchw_l2` raises (stale reference). -/
def L2Regularization_forward (fix_im : Option (List (List ℚ)))
    (examples : List (List ℚ)) : Except String (List ℚ) :=
  match fix_im with
  | none => Except.error stale_msg
  | some f => Except.ok (nchw_l2 examples f)

/-- `LpipsRegularization.forward` (loss_functions.py lines 244-248):
`dist_model.forward_var(2 * examples - 1., 2 * self.fix_im - 1.)`, with the
externally supplied distance network passed in as `dist_model`.  With
`fix_im = None` the expression `2 * None - 1.` raises (stale reference). -/
def LpipsRegularization_forward
    (dist_model : List (List ℚ) → List (List ℚ) → List ℚ)
    (fix_im : Option (List (List ℚ))) (examples : List (List ℚ)) :
    Except String (List ℚ) :=
  match fix_im with
  | none => Except.error stale_msg
  | some f =>
    Except.ok (dist_model (examples.map (fun im => im.map (fun x => 2 * x - 1)))
      (f.map (fun im => im.map (fun x => 2 * x - 1))))

/- -------------------------------------------------------------------- -/
/- Detection: NeuralFP.eval (NeuralFP.py lines 252-301)                 -/
/- -------------------------------------------------------------------- -/

/-- NeuralFP.py lines 294-297 for one candidate label: the per-example mask
update `if loss_fp[i] <= tau: adv_mask[i] = 1`, on the mask modelled as an
index function. -/
def flag_update (loss_fp : ℕ → ℚ) (tau : ℚ) (mask : ℕ → ℚ) : ℕ → ℚ :=
  fun i => if loss_fp i ≤ tau then 1 else mask i

/-- NeuralFP.py lines 287-297: `adv_mask = torch.zeros(real_bs)` followed by
`for label in xlabel:` applying the mask update with that label's computed
per-example distances `loss_fp label`. -/
def adv_mask_final (xlabel : List ℤ) (loss_fp : ℤ → ℕ → ℚ) (tau : ℚ) :
    ℕ → ℚ :=
  xlabel.foldl (fun mask label => flag_update (loss_fp label) tau mask)
    (fun _ => 0)

/-- NeuralFP.py line 284: `xlabel = []`, the hard-coded list of candidate
labels the detection loop iterates over. -/
def eval_xlabel : List ℤ := []

/-- Python attribute access `x.self` on an `int` value `x`: NeuralFP.py line
271 evaluates `self.num_dx.self.num_class` while building the `NFLoss`
arguments, and `self.num_dx` is an `int`, which has no attribute named
`self`, so the access raises `AttributeError`. -/
def int_attr_self (n : ℤ) : Except String ℤ :=
  Except.error "AttributeError: int object has no attribute self"

/-- `NeuralFP.eval` (NeuralFP.py lines 252-301): the `NFLoss` construction on
line 271 evaluates `self.num_dx.self` first, so every call errors there; the
(unreachable) remainder runs the batch loop, whose adversarial mask is
`adv_mask_final eval_xlabel`.  `loss_fp` stands for the per-candidate-label,
per-example distances the loop would compute. -/
def NeuralFP_eval (num_dx : ℤ) (loss_fp : ℤ → ℕ → ℚ) (tau : ℚ) :
    Except String (ℕ → ℚ) :=
  match int_attr_self num_dx with
  | Except.error e => Except.error e
  | Except.ok _ => Except.ok (adv_mask_final eval_xlabel loss_fp tau)

/- -------------------------------------------------------------------- -/
/- Theorems                                                             -/
/- -------------------------------------------------------------------- -/

/-- Claim C1 (code behaviour at a failing input).  The direction loop of
`NeuralFP.train` doubles the whole accumulated batch at every step, so with
`B = 1` and `D = 3` directions `[[1]], [[2]], [[4]]` on input `[[0]]` the
augmented batch has `2^3 = 8` rows, not `B*(D+1) = 4`; and the row block used
for direction 3 (rows `[3*B, 4*B)`) holds `x + d1 + d2 = [3]`, not
`x + d3 = [4]` as the claim states. -/
theorem c1_augmented_batch_code :
    (augmented_batch [[0]] [[1], [2], [4]]).length = 8 ∧
    (augmented_batch [[0]] [[1], [2], [4]]).length ≠ 1 * (3 + 1) ∧
    (augmented_batch [[0]] [[1], [2], [4]]).getD 3 [] = [3] ∧
    (augmented_batch [[0]] [[1], [2], [4]]).getD 3 [] ≠
      List.zipWith (fun a b => a + b) [0] [4] := by
  have hb : augmented_batch [[0]] [[1], [2], [4]] =
      [[0], [1], [2], [3], [4], [5], [6], [7]] := by
    norm_num [augmented_batch, augment_step]
  have hz : List.zipWith (fun a b : ℚ => a + b) [0] [4] = [4] := by
    norm_num
  rw [hb, hz]
  norm_num

/-- Claim C2: for every dataset profile, all class pairs `c ≠ c'` and every
direction index `j`, `fp_target[c,j,c] - fp_target[c,j,c']` is the fixed
positive constant `fp_sep`; for the CIFAR profile the own-class entry is
`0.9 = 1.5*0.6`, the other-class entry is `-0.381 = 1.5*(-0.254)`, and the
separation is `1.281`. -/
theorem c2_fingerprint_separation (dataset_name : String) (c c' j : ℕ)
    (h : c ≠ c') :
    fp_target_entry dataset_name c j c - fp_target_entry dataset_name c j c' =
      fp_sep dataset_name ∧
    0 < fp_sep dataset_name ∧
    fp_target_entry "cifar" c j c = 0.9 ∧
    fp_target_entry "cifar" c j c' = -0.381 ∧
    fp_sep "cifar" = 1.281 := by
  have h' : ¬ (c' = c) := fun hc => h hc.symm
  have hcm : (("cifar" : String) == "mnist") = false := by decide
  unfold fp_target_entry fp_sep
  by_cases hm : dataset_name == "mnist" <;>
    simp [hm, h', hcm] <;> norm_num

/-- Witness for C2 at the scenario of the spec: `c = 3`, `c' = 7`, `j = 0`,
CIFAR profile. -/
theorem c2_witness :
    (3 : ℕ) ≠ 7 ∧
    (fp_target_entry "cifar" 3 0 3 - fp_target_entry "cifar" 3 0 7 =
        fp_sep "cifar" ∧
      0 < fp_sep "cifar" ∧
      fp_target_entry "cifar" 3 0 3 = 0.9 ∧
      fp_target_entry "cifar" 3 0 7 = -0.381 ∧
      fp_sep "cifar" = 1.281) :=
  ⟨by decide, c2_fingerprint_separation "cifar" 3 7 0 (by decide)⟩

/-- Counterexample to claim C3: with `numDirections = 0 ≤ 0` and
`numClasses = 1 ≤ 1` the constructor succeeds (produces a fingerprint) instead
of failing with a `ConfigurationError`. -/
theorem c3_counterexample :
    (0 : ℤ) ≤ 0 ∧ (1 : ℤ) ≤ 1 ∧
    except_ok (NeuralFP_init "cifar" 0 1 (1/10) (fun _ _ => 1/2)) = true := by
  refine ⟨le_refl _, le_refl _, rfl⟩

/-- Claim C3 as amended: fingerprint generation performs no count validation
and never raises a `ConfigurationError`; it succeeds for every
`numDirections ≥ 0` and `numClasses ≥ 0` (including `numDirections = 0` and
`numClasses ≤ 1`), and the only count-related failure is the numpy
`ValueError` raised for a negative count. -/
theorem c3_amended (dataset_name : String) (num_dx num_class : ℤ) (eps : ℚ)
    (rand : ℕ → ℕ → ℚ) (h1 : 0 ≤ num_dx) (h2 : 0 ≤ num_class) :
    except_ok (NeuralFP_init dataset_name num_dx num_class eps rand) = true ∧
    except_ok (NeuralFP_init dataset_name (-1) num_class eps rand) = false ∧
    except_ok (NeuralFP_init dataset_name num_dx (-1) eps rand) = false := by
  refine ⟨?_, ?_, ?_⟩
  · unfold NeuralFP_init
    rw [if_neg (by omega)]
    split <;> rfl
  · unfold NeuralFP_init
    rw [if_pos (by omega)]
    rfl
  · unfold NeuralFP_init
    rw [if_pos (by omega)]
    rfl

/-- Witness for C3 (amended) at `dataset_name = "cifar"`, `num_dx = 5`,
`num_class = 10`. -/
theorem c3_witness :
    (0 : ℤ) ≤ 5 ∧ (0 : ℤ) ≤ 10 ∧
    (except_ok (NeuralFP_init "cifar" 5 10 (1/10) (fun _ _ => 1/2)) = true ∧
      except_ok (NeuralFP_init "cifar" (-1) 10 (1/10) (fun _ _ => 1/2)) = false ∧
      except_ok (NeuralFP_init "cifar" 5 (-1) (1/10) (fun _ _ => 1/2)) = false) :=
  ⟨by decide, by decide,
    c3_amended "cifar" 5 10 (1/10) (fun _ _ => 1/2) (by decide) (by decide)⟩

/-- Counterexample to claim C4: the mnist-profile direction entries are not
drawn from an interval of width `2*epsilon`.  At `epsilon = 1/10` there is no
interval `[lo, lo + 2*epsilon]` that both contains every reachable entry
`mnist_dir_entry (1/10) u` (for `u ∈ [0,1)`) and is fully covered by such
entries. -/
theorem c4_counterexample :
    ¬ ∃ lo : ℚ,
      (∀ u : ℚ, 0 ≤ u → u < 1 →
        lo ≤ mnist_dir_entry (1/10) u ∧
          mnist_dir_entry (1/10) u ≤ lo + 2 * (1/10)) ∧
      (∀ v : ℚ, lo ≤ v → v ≤ lo + 2 * (1/10) →
        ∃ u : ℚ, 0 ≤ u ∧ u < 1 ∧ mnist_dir_entry (1/10) u = v) := by
  rintro ⟨lo, hb, hs⟩
  have h0 := hb 0 le_rfl (by norm_num)
  simp only [mnist_dir_entry, zero_mul] at h0
  rcases lt_or_le lo 0 with hlo | hlo
  · obtain ⟨u, hu0, _, hequ⟩ := hs lo le_rfl (by norm_num)
    simp only [mnist_dir_entry] at hequ
    nlinarith
  · have hlo0 : lo = 0 := le_antisymm h0.1 hlo
    obtain ⟨u, _, hu1, hequ⟩ := hs (1/5) (by rw [hlo0]; norm_num)
      (by rw [hlo0]; norm_num)
    simp only [mnist_dir_entry] at hequ
    nlinarith

/-- Claim C4 as amended: every direction entry is bounded in magnitude by
`epsilon`; the mnist profile draws from `[0, epsilon]` (an interval of width
`epsilon`, not `2*epsilon`) and the CIFAR profile draws from
`[-epsilon, epsilon]` (width `2*epsilon`). -/
theorem c4_amended (eps u : ℚ) (he : 0 ≤ eps) (h0 : 0 ≤ u) (h1 : u < 1) :
    (0 ≤ mnist_dir_entry eps u ∧ mnist_dir_entry eps u ≤ eps ∧
      |mnist_dir_entry eps u| ≤ eps) ∧
    (-eps ≤ cifar_dir_entry eps u ∧ cifar_dir_entry eps u ≤ eps ∧
      |cifar_dir_entry eps u| ≤ eps) := by
  unfold mnist_dir_entry cifar_dir_entry
  have hm0 : 0 ≤ u * eps := mul_nonneg h0 he
  have hm1 : u * eps ≤ eps := by nlinarith
  have hc0 : -eps ≤ (u - 0.5) * 2 * eps := by nlinarith
  have hc1 : (u - 0.5) * 2 * eps ≤ eps := by nlinarith
  exact ⟨⟨hm0, hm1, abs_le.mpr ⟨by linarith, hm1⟩⟩,
    ⟨hc0, hc1, abs_le.mpr ⟨hc0, hc1⟩⟩⟩

/-- Witness for C4 (amended) at `eps = 1/10`, `u = 1/2`. -/
theorem c4_witness :
    (0 : ℚ) ≤ 1/10 ∧ (0 : ℚ) ≤ 1/2 ∧ (1/2 : ℚ) < 1 ∧
    ((0 ≤ mnist_dir_entry (1/10) (1/2) ∧ mnist_dir_entry (1/10) (1/2) ≤ 1/10 ∧
        |mnist_dir_entry (1/10) (1/2)| ≤ 1/10) ∧
      (-(1/10) ≤ cifar_dir_entry (1/10) (1/2) ∧
        cifar_dir_entry (1/10) (1/2) ≤ 1/10 ∧
        |cifar_dir_entry (1/10) (1/2)| ≤ 1/10)) :=
  ⟨by norm_num, by norm_num, by norm_num,
    c4_amended (1/10) (1/2) (by norm_num) (by norm_num) (by norm_num)⟩

/-- Claim C5: in every batch step the combined loss is
`vanilla + scale * fingerprintLoss`, where `scale` is the explicit override if
one is supplied, else `1 + 50/D` for the cifar profile, else `1`; with
`D = 5`, the cifar profile and no override the scale is `11`. -/
theorem c5_loss_scale (loss reg_adv_loss : ℚ) (num_dx : ℕ)
    (dataset_name : String) (override : Option ℚ) (h : 0 < num_dx) :
    combined_loss loss reg_adv_loss num_dx dataset_name override =
      loss + loss_scale num_dx dataset_name override * reg_adv_loss ∧
    loss_scale 5 "cifar" none = 11 := by
  constructor
  · cases override with
    | some s => rfl
    | none =>
      unfold combined_loss loss_scale
      by_cases hc : dataset_name == "cifar" <;> simp [hc]
  · unfold loss_scale
    norm_num

/-- Witness for C5 at the spec scenario: `D = 5`, cifar profile, no
override. -/
theorem c5_witness :
    0 < 5 ∧
    (combined_loss 2 3 5 "cifar" none =
        2 + loss_scale 5 "cifar" none * 3 ∧
      loss_scale 5 "cifar" none = 11) :=
  ⟨by decide, c5_loss_scale 2 3 5 "cifar" none (by decide)⟩

/-- Every member of a list is at most its `listMax`. -/
theorem le_listMax : ∀ (l : List ℚ) (x : ℚ), x ∈ l → x ≤ listMax l
  | [], x, hx => absurd hx (List.not_mem_nil x)
  | [a], x, hx => by
    rw [List.mem_singleton] at hx
    simp [listMax, hx]
  | a :: b :: t, x, hx => by
    rcases List.mem_cons.mp hx with h | h
    · simp [listMax, h, le_max_left]
    · have ih := le_listMax (b :: t) x h
      simp only [listMax]
      exact le_trans ih (le_max_right _ _)

/-- `listMax` of a nonempty list is one of its members. -/
theorem listMax_mem : ∀ (l : List ℚ), l ≠ [] → listMax l ∈ l
  | [], h => absurd rfl h
  | [a], _ => by simp [listMax]
  | a :: b :: t, _ => by
    simp only [listMax]
    rcases le_total a (listMax (b :: t)) with h | h
    · rw [max_eq_right h]
      exact List.mem_cons_of_mem a (listMax_mem (b :: t) (by simp))
    · rw [max_eq_left h]
      exact List.mem_cons_self a (b :: t)

/-- `argmaxIdx` is a valid index of a nonempty list. -/
theorem argmaxIdx_lt : ∀ (l : List ℚ), l ≠ [] → argmaxIdx l < l.length
  | [], h => absurd rfl h
  | [a], _ => by simp [argmaxIdx]
  | a :: b :: t, _ => by
    simp only [argmaxIdx]
    split
    · simp
    · have ih := argmaxIdx_lt (b :: t) (by simp)
      simpa [List.length_cons] using Nat.succ_lt_succ ih

/-- The entry at `argmaxIdx` is the maximum. -/
theorem getD_argmaxIdx : ∀ (l : List ℚ), l ≠ [] →
    l.getD (argmaxIdx l) 0 = listMax l
  | [], h => absurd rfl h
  | [a], _ => by simp [argmaxIdx, listMax]
  | a :: b :: t, _ => by
    simp only [argmaxIdx, listMax]
    split
    · rename_i hle
      rw [max_eq_left hle]
      rfl
    · rename_i hlt
      push_neg at hlt
      rw [max_eq_right hlt.le, List.getD_cons_succ]
      exact getD_argmaxIdx (b :: t) (by simp)

/-- A valid entry of a list is a member. -/
theorem getD_mem : ∀ (l : List ℚ) (i : ℕ), i < l.length → l.getD i 0 ∈ l
  | [], i, hi => absurd hi (by simp)
  | a :: t, 0, _ => by simp
  | a :: t, i + 1, hi => by
    rw [List.getD_cons_succ]
    exact List.mem_cons_of_mem a (getD_mem t i (by simpa using hi))

/-- An entry at a valid index other than `k` survives `eraseIdx k`. -/
theorem getD_mem_eraseIdx : ∀ (l : List ℚ) (i k : ℕ), i < l.length → i ≠ k →
    l.getD i 0 ∈ l.eraseIdx k
  | [], i, k, hi, _ => absurd hi (by simp)
  | a :: t, 0, 0, _, hne => absurd rfl hne
  | a :: t, 0, k + 1, _, _ => by
    rw [List.eraseIdx_cons_succ, List.getD_cons_zero]
    exact List.mem_cons_self a _
  | a :: t, i + 1, 0, hi, _ => by
    rw [List.eraseIdx_cons_zero, List.getD_cons_succ]
    exact getD_mem t i (by simpa using hi)
  | a :: t, i + 1, k + 1, hi, hne => by
    rw [List.eraseIdx_cons_succ, List.getD_cons_succ]
    exact List.mem_cons_of_mem a
      (getD_mem_eraseIdx t i k (by simpa using hi) (by omega))

/-- The `max_other` computed by `CWLossF6.forward` from the top-2 logits is
exactly the highest logit among the non-label classes. -/
theorem max_other_eq (l : List ℚ) (label : ℕ) (h2 : 2 ≤ l.length)
    (hl : label < l.length) :
    max_other l label = listMax (l.eraseIdx label) := by
  have hne : l ≠ [] := by
    intro h
    rw [h] at h2
    simp at h2
  unfold max_other
  by_cases heq : argmaxIdx l = label
  · rw [if_pos heq, heq]
  · rw [if_neg heq]
    have hok : l.eraseIdx label ≠ [] := by
      have hlen : (l.eraseIdx label).length = l.length - 1 :=
        List.length_eraseIdx_of_lt hl
      intro h
      rw [h] at hlen
      simp at hlen
      omega
    apply le_antisymm
    · have h1 : l.getD (argmaxIdx l) 0 ∈ l.eraseIdx label :=
        getD_mem_eraseIdx l (argmaxIdx l) label (argmaxIdx_lt l hne) heq
      calc listMax l = l.getD (argmaxIdx l) 0 := (getD_argmaxIdx l hne).symm
        _ ≤ listMax (l.eraseIdx label) := le_listMax _ _ h1
    · exact le_listMax l _ (List.eraseIdx_subset l label (listMax_mem _ hok))

/-- Claim C6: per example, `CWLossF6.forward` returns
`clamp(max_other - target, min = -kappa)` in targeted mode and
`clamp(target - max_other, min = -kappa)` in untargeted mode, where `target`
is the logit at the label class and `max_other` is the highest logit among
the other classes (the second-highest overall logit when the top logit sits
at the label class). -/
theorem c6_margin_loss (logits : List ℚ) (label : ℕ) (kappa : ℚ)
    (h2 : 2 ≤ logits.length) (hl : label < logits.length) :
    cw_forward logits label kappa true =
      max (listMax (logits.eraseIdx label) - logits.getD label 0) (-kappa) ∧
    cw_forward logits label kappa false =
      max (logits.getD label 0 - listMax (logits.eraseIdx label)) (-kappa) := by
  have h := max_other_eq logits label h2 hl
  constructor <;> simp [cw_forward, h]

/-- Witness for C6 at logits `[3, 1, 2]`, label `1`, `kappa = 1/2`. -/
theorem c6_witness :
    2 ≤ ([3, 1, 2] : List ℚ).length ∧ 1 < ([3, 1, 2] : List ℚ).length ∧
    (cw_forward [3, 1, 2] 1 (1/2) true =
        max (listMax (([3, 1, 2] : List ℚ).eraseIdx 1) -
          ([3, 1, 2] : List ℚ).getD 1 0) (-(1/2)) ∧
      cw_forward [3, 1, 2] 1 (1/2) false =
        max (([3, 1, 2] : List ℚ).getD 1 0 -
          listMax (([3, 1, 2] : List ℚ).eraseIdx 1)) (-(1/2))) :=
  ⟨by decide, by decide, c6_margin_loss [3, 1, 2] 1 (1/2) (by decide) (by decide)⟩

/-- Counting reset events: the flattened per-term event lists contain each
net id once per occurrence in each owning term's `nets`. -/
theorem count_flatten_zero_grad :
    ∀ (losses : List (String × LossTermV)) (n : ℕ),
      ((losses.map (fun p => p.2.zero_grad)).flatten).count n =
        (losses.map (fun p => p.2.nets.count n)).sum
  | [], n => by simp
  | p :: rest, n => by
    simp only [List.map_cons, List.flatten_cons, List.count_append,
      List.sum_cons]
    rw [count_flatten_zero_grad rest n]
    rfl

/-- Counterexample to claim C7: a `RegularizedLoss` whose two terms share the
underlying network `0` resets that network twice per outer
`zero_grad()` call, not once. -/
theorem c7_counterexample :
    RegularizedLoss.zero_grad
        { losses := [("xent", LossTermV.xent_term 0), ("cw", LossTermV.cw_term 0 0)],
          scalars := [("xent", PyScalar.num 1), ("cw", PyScalar.num 1)] } = [0, 0] ∧
    (RegularizedLoss.zero_grad
        { losses := [("xent", LossTermV.xent_term 0), ("cw", LossTermV.cw_term 0 0)],
          scalars := [("xent", PyScalar.num 1), ("cw", PyScalar.num 1)] }).count 0 = 2 ∧
    (2 : ℕ) ≠ 1 := by
  refine ⟨rfl, rfl, by decide⟩

/-- Claim C7 as amended: `RegularizedLoss.zero_grad` performs no
deduplication; it resets every network once per occurrence in each owning
term's `nets` list, so a network shared by several terms is reset that many
times per outer call (the total reset count of net `n` is the sum over terms
of the occurrences of `n` in that term's `nets`). -/
theorem c7_amended (losses : List (String × LossTermV))
    (scalars : List (String × PyScalar)) (n : ℕ) :
    (RegularizedLoss.zero_grad { losses := losses, scalars := scalars }).count n =
      (losses.map (fun p => p.2.nets.count n)).sum := by
  unfold RegularizedLoss.zero_grad
  exact count_flatten_zero_grad losses n

/-- Claim C8: after `cleanup_attack_batch()` on a `RegularizedLoss`, every
reference-type term's fixed image is unset (`None`), every scalar that is not
a plain number is cleared to `None`, and re-evaluating a reference-type term
(L2 or learned-perceptual) whose `fix_im` is unset raises the
stale-reference error. -/
theorem c8_cleanup_lifecycle (r : RegularizedLoss) (p : String × LossTermV)
    (q : String × PyScalar) (examples : List (List ℚ))
    (dist_model : List (List ℚ) → List (List ℚ) → List ℚ)
    (hp : p ∈ r.cleanup_attack_batch.losses)
    (hq : q ∈ r.cleanup_attack_batch.scalars)
    (href : p.2.is_ref = true) (hnum : is_number q.2 = false) :
    p.2.fix_im = none ∧ q.2 = PyScalar.pynone ∧
    L2Regularization_forward p.2.fix_im examples = Except.error stale_msg ∧
    LpipsRegularization_forward dist_model p.2.fix_im examples =
      Except.error stale_msg := by
  simp only [RegularizedLoss.cleanup_attack_batch] at hp hq
  obtain ⟨⟨k, t⟩, _, hpe⟩ := List.mem_map.mp hp
  obtain ⟨⟨k2, s⟩, _, hqe⟩ := List.mem_map.mp hq
  have hfix : p.2.fix_im = none := by
    rw [← hpe] at href ⊢
    cases t <;>
      simp_all [LossTermV.is_ref, LossTermV.cleanup_attack_batch,
        LossTermV.fix_im]
  have hsc : q.2 = PyScalar.pynone := by
    rw [← hqe] at hnum ⊢
    cases s <;> simp_all [is_number]
  rw [hfix]
  exact ⟨rfl, hsc, rfl, rfl⟩

/-- Witness for C8: a one-term, one-weight `RegularizedLoss` with an L2
reference term carrying a fixed image and a per-example tensor weight. -/
theorem c8_witness :
    ("l2", LossTermV.l2_term none) ∈
      (RegularizedLoss.cleanup_attack_batch
        { losses := [("l2", LossTermV.l2_term (some [[1]]))],
          scalars := [("w", PyScalar.tensor [1, 2])] }).losses ∧
    ("w", PyScalar.pynone) ∈
      (RegularizedLoss.cleanup_attack_batch
        { losses := [("l2", LossTermV.l2_term (some [[1]]))],
          scalars := [("w", PyScalar.tensor [1, 2])] }).scalars ∧
    (LossTermV.l2_term none).is_ref = true ∧
    is_number PyScalar.pynone = false ∧
    ((LossTermV.l2_term none).fix_im = none ∧
      PyScalar.pynone = PyScalar.pynone ∧
      L2Regularization_forward (LossTermV.l2_term none).fix_im [[0]] =
        Except.error stale_msg ∧
      LpipsRegularization_forward (fun _ _ => [0])
        (LossTermV.l2_term none).fix_im [[0]] = Except.error stale_msg) :=
  ⟨by simp [RegularizedLoss.cleanup_attack_batch, LossTermV.is_ref,
      LossTermV.cleanup_attack_batch],
    by simp [RegularizedLoss.cleanup_attack_batch, is_number],
    rfl, rfl,
    c8_cleanup_lifecycle
      { losses := [("l2", LossTermV.l2_term (some [[1]]))],
        scalars := [("w", PyScalar.tensor [1, 2])] }
      ("l2", LossTermV.l2_term none) ("w", PyScalar.pynone) [[0]]
      (fun _ _ => [0])
      (by simp [RegularizedLoss.cleanup_attack_batch, LossTermV.is_ref,
        LossTermV.cleanup_attack_batch])
      (by simp [RegularizedLoss.cleanup_attack_batch, is_number])
      rfl rfl⟩

/-- The detection-mask fold evaluated pointwise: an index reads `1` exactly
when some candidate label's distance is at most `tau`, and otherwise keeps
its initial value. -/
theorem adv_mask_fold (d : ℤ → ℕ → ℚ) (tau : ℚ) :
    ∀ (xlabel : List ℤ) (m : ℕ → ℚ) (i : ℕ),
      (xlabel.foldl (fun mask label => flag_update (d label) tau mask) m) i =
        if (xlabel.any fun l => decide (d l i ≤ tau)) = true then 1 else m i := by
  intro xlabel
  induction xlabel with
  | nil => intro m i; simp
  | cons l ls ih =>
    intro m i
    rw [List.foldl_cons, ih]
    by_cases hd : d l i ≤ tau <;>
      by_cases ha : (ls.any fun l2 => decide (d l2 i ≤ tau)) = true <;>
        simp [flag_update, hd, ha]

/-- Claim C9: in the detection loop an example's mask entry is `1` exactly
when some candidate label's computed per-example distance is at most `tau`
(`loss_per_example <= tau`), so for fixed distances the set of examples
flagged at `tau1` is a subset of the set flagged at `tau2` whenever
`tau1 ≤ tau2`. -/
theorem c9_detection_monotonic (xlabel : List ℤ) (d : ℤ → ℕ → ℚ)
    (tau1 tau2 : ℚ) (bs i : ℕ) (h : tau1 ≤ tau2) :
    (adv_mask_final xlabel d tau1 i =
      if (xlabel.any fun l => decide (d l i ≤ tau1)) = true then 1 else 0) ∧
    ((Finset.range bs).filter (fun j => adv_mask_final xlabel d tau1 j = 1) ⊆
      (Finset.range bs).filter (fun j => adv_mask_final xlabel d tau2 j = 1)) := by
  constructor
  · exact adv_mask_fold d tau1 xlabel (fun _ => 0) i
  · intro j hj
    rw [Finset.mem_filter] at hj ⊢
    refine ⟨hj.1, ?_⟩
    have h1 := hj.2
    rw [adv_mask_final, adv_mask_fold d tau1 xlabel (fun _ => 0) j] at h1
    rw [adv_mask_final, adv_mask_fold d tau2 xlabel (fun _ => 0) j]
    by_cases ha : (xlabel.any fun l => decide (d l j ≤ tau1)) = true
    · obtain ⟨l, hl, hdl⟩ := List.any_eq_true.mp ha
      have ha2 : (xlabel.any fun l => decide (d l j ≤ tau2)) = true :=
        List.any_eq_true.mpr ⟨l, hl, by
          rw [decide_eq_true_eq] at hdl ⊢
          exact le_trans hdl h⟩
      rw [if_pos ha2]
    · rw [if_neg ha] at h1
      exact absurd h1 zero_ne_one

/-- Witness for C9 at `xlabel = [0]`, constant distance `1/2`, thresholds
`1 ≤ 2`, one example. -/
theorem c9_witness :
    (1 : ℚ) ≤ 2 ∧
    ((adv_mask_final [0] (fun _ _ => 1/2) 1 0 =
        if (([0] : List ℤ).any fun l => decide ((1/2 : ℚ) ≤ 1)) = true
        then 1 else 0) ∧
      ((Finset.range 1).filter
          (fun j => adv_mask_final [0] (fun _ _ => 1/2) 1 j = 1) ⊆
        (Finset.range 1).filter
          (fun j => adv_mask_final [0] (fun _ _ => 1/2) 2 j = 1))) :=
  ⟨by norm_num, c9_detection_monotonic [0] (fun _ _ => 1/2) 1 2 1 0 (by norm_num)⟩

/-- Claim C10: every call of `NeuralFP.eval` fails with an `AttributeError`
while building the `NFLoss` arguments (line 271 reads attribute `self` of the
`int` field `num_dx`), before any batch is processed; and the candidate-label
list the detection loop would iterate over is the hard-coded empty list, so
the adversarial mask would stay all zeros (no example is ever flagged). -/
theorem c10_eval_dead_code (num_dx : ℤ) (loss_fp : ℤ → ℕ → ℚ) (tau : ℚ)
    (i : ℕ) :
    NeuralFP_eval num_dx loss_fp tau =
      Except.error "AttributeError: int object has no attribute self" ∧
    eval_xlabel = ([] : List ℤ) ∧
    adv_mask_final eval_xlabel loss_fp tau i = 0 :=
  ⟨rfl, rfl, rfl⟩
